import Mathlib

/-!
Verification development for a connectivity monitor (src/main.py).

The program pings a landmark once per tick; a state machine classifies the
stream of ping results into Online / Offline periods and reports each closed
period to a logfile, together with latency statistics for Online periods.

Shallow embedding choices:
- A Python ping result is a tagged value: the literal True means the local
  interface is down, the literal False means the landmark is unreachable,
  and a float is the observed latency in milliseconds.  We embed it as the
  inductive PingResult, and latencies as exact rationals.
- Wall-clock instants (DateTime values) are embedded as rationals counting
  seconds; DateTime.now() at a call site becomes an explicit argument now.
- Report emission (printing to the logfile) becomes a returned list of
  Report values; the textual rendering of statistics is embedded separately
  in Stats.report_line.
-/

/-- Embeds the value stored in Context.Result.ping_result (src/main.py,
Context._ping_once): True when the interface is down, False when the landmark
is unreachable, and the float delay in ms on success. -/
inductive PingResult where
  | ifaceDown : PingResult
  | unreachable : PingResult
  | delay : ℚ → PingResult
deriving DecidableEq

/-- Python truthiness of a ping result: True is truthy, False is falsy, and a
float is truthy exactly when it is nonzero. -/
def PingResult.truthy : PingResult → Bool
  | .ifaceDown => true
  | .unreachable => false
  | .delay d => if d = 0 then false else true

/-- Python isinstance(r, float): only the delay variant is a float (the bool
True is not a float instance). -/
def PingResult.isFloat : PingResult → Bool
  | .delay _ => true
  | _ => false

/-- Embeds Context.Result: the capture time of the tick and the ping result. -/
structure Result where
  time : ℚ
  ping_result : PingResult
deriving DecidableEq

/-- Embeds the Stats class: the list of delays recorded during a live period. -/
structure Stats where
  delays : List ℚ
deriving DecidableEq

/-- Embeds Stats.record: append the value only when it is a float instance. -/
def Stats.record (st : Stats) (d : PingResult) : Stats :=
  match d with
  | .delay q => ⟨st.delays ++ [q]⟩
  | _ => st

/-- Embeds statistics.mean on the recorded delays (Python computes this sum
exactly over fractions): the sum divided by the number of samples. -/
def statistics_mean (l : List ℚ) : ℚ := l.sum / (l.length : ℚ)

/-- Embeds statistics.variance with the Bessel divisor n - 1, the square of
statistics.stdev; the code only evaluates it for two or more samples. -/
def statistics_variance (l : List ℚ) : ℚ :=
  (l.map (fun x => (x - statistics_mean l) ^ 2)).sum / ((l.length : ℚ) - 1)

/-- Embeds Python min() over a nonempty list (the empty case never reaches the
builtin in the code, report_line guards it). -/
def list_min : List ℚ → ℚ
  | [] => 0
  | x :: xs => xs.foldl min x

/-- Embeds Python max() over a nonempty list. -/
def list_max : List ℚ → ℚ
  | [] => 0
  | x :: xs => xs.foldl max x

/-- Rounding to an integer with ties to even, the rounding used by Python
float formatting with two fraction digits. -/
def round_half_even (q : ℚ) : ℤ :=
  if q - (⌊q⌋ : ℚ) < 1 / 2 then ⌊q⌋
  else if (1 : ℚ) / 2 < q - (⌊q⌋ : ℚ) then ⌊q⌋ + 1
  else if ⌊q⌋ % 2 = 0 then ⌊q⌋ else ⌊q⌋ + 1

/-- Two-digit decimal padding for the fraction part. -/
def pad2 (n : ℕ) : String := if n < 10 then "0" ++ toString n else toString n

/-- Embeds the Python format specifier .2f applied to an exact value: round
to hundredths with ties to even and render with exactly two fraction digits. -/
def fmt2 (q : ℚ) : String :=
  if round_half_even (q * 100) < 0 then
    "-" ++ toString ((- round_half_even (q * 100)).toNat / 100) ++ "."
      ++ pad2 ((- round_half_even (q * 100)).toNat % 100)
  else
    toString ((round_half_even (q * 100)).toNat / 100) ++ "."
      ++ pad2 ((round_half_even (q * 100)).toNat % 100)

/-- Embeds Stats.report_line.  The code renders, for two or more samples, the
value of statistics.stdev(self.delays); that value is an irrational square
root in general, so it is passed here as the explicit argument stdev, which
the theorems constrain by stdev ^ 2 = statistics_variance. -/
def Stats.report_line (st : Stats) (stdev : ℚ) : String :=
  if st.delays = [] then "0 0.00 0.00 0.00"
  else if st.delays.length = 1 then
    "1 " ++ fmt2 (st.delays.headD 0) ++ " 0.00 " ++ fmt2 (st.delays.headD 0)
      ++ " " ++ fmt2 (st.delays.headD 0)
  else
    toString st.delays.length ++ " " ++ fmt2 (statistics_mean st.delays)
      ++ " " ++ fmt2 stdev ++ " " ++ fmt2 (list_min st.delays)
      ++ " " ++ fmt2 (list_max st.delays)

/-- Embeds StateMachine.State. -/
inductive State where
  | unknown : State
  | online : State
  | offline : State
deriving DecidableEq

/-- Embeds the mutable fields of StateMachine (the logfile handle is replaced
by returning emitted reports). -/
structure StateMachine where
  state : State
  state_time : Option ℚ
  stats : Option Stats
deriving DecidableEq

/-- Embeds StateMachine.__init__. -/
def machineInit : StateMachine := ⟨State.unknown, none, none⟩

/-- A report printed to the logfile: OFF lines carry the period start and the
DateTime.now() of the printing call; ON lines additionally carry the stats
object whose report_line is appended. -/
inductive Report where
  | off : Option ℚ → ℚ → Report
  | on : Option ℚ → ℚ → Option Stats → Report
deriving DecidableEq

/-- Embeds StateMachine.handle_result.  The test result.ping_result is False
holds exactly for the unreachable variant; the Offline branch tests Python
truthiness.  now embeds DateTime.now() inside the report calls; the stats
field is an Option, and recording maps over it (it is always present while
Online). -/
def handle_result (m : StateMachine) (result : Result) (now : ℚ) :
    StateMachine × List Report :=
  match m.state with
  | State.unknown =>
      if result.ping_result = PingResult.unreachable then
        ({ m with state := State.offline, state_time := some result.time }, [])
      else
        ({ m with
             state := State.online
             state_time := some result.time
             stats := some (Stats.record ⟨[]⟩ result.ping_result) }, [])
  | State.online =>
      if result.ping_result = PingResult.unreachable then
        ({ m with
             state := State.offline
             state_time := some result.time
             stats := none },
         [Report.on m.state_time now m.stats])
      else
        if result.ping_result.isFloat then
          ({ m with stats := m.stats.map (fun st => st.record result.ping_result) }, [])
        else
          (m, [])
  | State.offline =>
      if result.ping_result.truthy then
        ({ m with
             state := State.online
             state_time := some result.time
             stats := some (Stats.record ⟨[]⟩ result.ping_result) },
         [Report.off m.state_time now])
      else
        (m, [])

/-- Embeds StateMachine.cleanup: flush the open period, if any, and reset. -/
def cleanup (m : StateMachine) (now : ℚ) : StateMachine × List Report :=
  match m.state with
  | State.offline =>
      ({ m with
           state := State.unknown
           state_time := none },
       [Report.off m.state_time now])
  | State.online =>
      ({ m with
           state := State.unknown
           state_time := none },
       [Report.on m.state_time now m.stats])
  | State.unknown => (m, [])

/-- Embeds the duration computed by report_outage and report_live:
round((DateTime.now() - self.state_time).seconds).  A Python timedelta holding
d seconds has seconds component floor(d) mod 86400 (the days are dropped), and
round on that int is the identity. -/
def report_duration (state_time now : ℚ) : ℤ :=
  ⌊now - state_time⌋ % 86400

/-- Feeds a list of (result, now) pairs through handle_result, collecting all
reports in emission order. -/
def run (m : StateMachine) : List (Result × ℚ) → StateMachine × List Report
  | [] => (m, [])
  | (r, now) :: rest =>
      ((run (handle_result m r now).1 rest).1,
       (handle_result m r now).2 ++ (run (handle_result m r now).1 rest).2)

/-- Counts, along a run, the steps whose handling moves the machine from
Online to Offline or from Offline to Online. -/
def countTransitions (m : StateMachine) : List (Result × ℚ) → ℕ
  | [] => 0
  | (r, now) :: rest =>
      (if (m.state = State.online ∧ (handle_result m r now).1.state = State.offline)
          ∨ (m.state = State.offline ∧ (handle_result m r now).1.state = State.online)
       then 1 else 0)
        + countTransitions (handle_result m r now).1 rest

/-! ## Helper lemmas -/

/-- One handling step emits exactly one report when it moves the machine
between Online and Offline, and none otherwise. -/
lemma handle_result_length (m : StateMachine) (r : Result) (now : ℚ) :
    (handle_result m r now).2.length =
      if (m.state = State.online ∧ (handle_result m r now).1.state = State.offline)
          ∨ (m.state = State.offline ∧ (handle_result m r now).1.state = State.online)
      then 1 else 0 := by
  rcases m with ⟨st, t, sts⟩
  rcases r with ⟨rt, pr⟩
  cases st <;> rcases pr with _ | _ | d <;>
    simp [handle_result, PingResult.truthy, PingResult.isFloat]
  all_goals (split_ifs <;> simp_all)

/-- Over a whole run, the reports emitted equal the Online/Offline
transitions, step by step. -/
lemma run_length (rs : List (Result × ℚ)) :
    ∀ m : StateMachine, (run m rs).2.length = countTransitions m rs := by
  induction rs with
  | nil => intro m; simp [run, countTransitions]
  | cons p rest ih =>
      intro m
      obtain ⟨r, now⟩ := p
      simp [run, countTransitions, handle_result_length, ih]

/-- cleanup emits one report exactly when the state is not Unknown. -/
lemma cleanup_length (m : StateMachine) (now : ℚ) :
    (cleanup m now).2.length = if m.state = State.unknown then 0 else 1 := by
  rcases m with ⟨st, t, sts⟩
  cases st <;> simp [cleanup]

/-- Handling an interface-down result while Online changes nothing. -/
lemma handle_ifaceDown_online (m : StateMachine) (t now : ℚ)
    (h : m.state = State.online) :
    handle_result m ⟨t, PingResult.ifaceDown⟩ now = (m, []) := by
  rcases m with ⟨st, tt, sts⟩
  cases st <;> simp_all [handle_result, PingResult.isFloat]

/-- The left fold of min starting at x is x or a list element. -/
lemma foldl_min_mem (xs : List ℚ) (x : ℚ) :
    xs.foldl min x = x ∨ xs.foldl min x ∈ xs := by
  induction xs generalizing x with
  | nil => simp
  | cons a as ih =>
      simp only [List.foldl_cons]
      rcases ih (min x a) with h | h
      · rcases min_choice x a with hm | hm
        · left; rw [h, hm]
        · right; rw [h, hm]; exact List.mem_cons_self a as
      · right; exact List.mem_cons_of_mem a h

/-- The left fold of min is a lower bound of the seed and the list. -/
lemma foldl_min_le (xs : List ℚ) (x : ℚ) :
    xs.foldl min x ≤ x ∧ ∀ y ∈ xs, xs.foldl min x ≤ y := by
  induction xs generalizing x with
  | nil => simp
  | cons a as ih =>
      simp only [List.foldl_cons]
      obtain ⟨h1, h2⟩ := ih (min x a)
      refine ⟨le_trans h1 (min_le_left _ _), ?_⟩
      intro y hy
      rcases List.mem_cons.1 hy with rfl | hy
      · exact le_trans h1 (min_le_right _ _)
      · exact h2 y hy

/-- The left fold of max starting at x is x or a list element. -/
lemma foldl_max_mem (xs : List ℚ) (x : ℚ) :
    xs.foldl max x = x ∨ xs.foldl max x ∈ xs := by
  induction xs generalizing x with
  | nil => simp
  | cons a as ih =>
      simp only [List.foldl_cons]
      rcases ih (max x a) with h | h
      · rcases max_choice x a with hm | hm
        · left; rw [h, hm]
        · right; rw [h, hm]; exact List.mem_cons_self a as
      · right; exact List.mem_cons_of_mem a h

/-- The left fold of max is an upper bound of the seed and the list. -/
lemma foldl_max_le (xs : List ℚ) (x : ℚ) :
    x ≤ xs.foldl max x ∧ ∀ y ∈ xs, y ≤ xs.foldl max x := by
  induction xs generalizing x with
  | nil => simp
  | cons a as ih =>
      simp only [List.foldl_cons]
      obtain ⟨h1, h2⟩ := ih (max x a)
      refine ⟨le_trans (le_max_left _ _) h1, ?_⟩
      intro y hy
      rcases List.mem_cons.1 hy with rfl | hy
      · exact le_trans (le_max_right _ _) h1
      · exact h2 y hy

/-- list_min of a nonempty list is an element and a lower bound. -/
lemma list_min_spec (l : List ℚ) (h : l ≠ []) :
    list_min l ∈ l ∧ ∀ x ∈ l, list_min l ≤ x := by
  match l, h with
  | x :: xs, _ =>
      constructor
      · rcases foldl_min_mem xs x with h1 | h1
        · rw [list_min, h1]; exact List.mem_cons_self x xs
        · rw [list_min]; exact List.mem_cons_of_mem x h1
      · intro y hy
        rcases List.mem_cons.1 hy with rfl | hy
        · exact (foldl_min_le xs y).1
        · exact (foldl_min_le xs x).2 y hy

/-- list_max of a nonempty list is an element and an upper bound. -/
lemma list_max_spec (l : List ℚ) (h : l ≠ []) :
    list_max l ∈ l ∧ ∀ x ∈ l, x ≤ list_max l := by
  match l, h with
  | x :: xs, _ =>
      constructor
      · rcases foldl_max_mem xs x with h1 | h1
        · rw [list_max, h1]; exact List.mem_cons_self x xs
        · rw [list_max]; exact List.mem_cons_of_mem x h1
      · intro y hy
        rcases List.mem_cons.1 hy with rfl | hy
        · exact (foldl_max_le xs y).1
        · exact (foldl_max_le xs x).2 y hy

/-! ## Claim theorems -/

/-- C1 counterexample: from Unknown, an interface-down observation does not
move the machine to Offline (it moves it to Online): the code tests
result.ping_result is False, and the True of a down interface fails that
test. -/
theorem claim_C1_cex :
    ¬ ((handle_result machineInit ⟨0, PingResult.ifaceDown⟩ 0).1.state
        = State.offline) := by
  decide

/-- C1 (amended): starting from Unknown, handling an interface-down
observation transitions the machine to Online and starts a new Online period
whose start time is the observation timestamp, with an empty stats
aggregator; no report is emitted. -/
theorem claim_C1_unknown_ifaceDown (m : StateMachine) (t now : ℚ)
    (h : m.state = State.unknown) :
    handle_result m ⟨t, PingResult.ifaceDown⟩ now
      = ({ m with
             state := State.online
             state_time := some t
             stats := some ⟨[]⟩ }, []) := by
  rcases m with ⟨st, tt, sts⟩
  cases st <;> simp_all [handle_result, Stats.record]

/-- C1 witness: the amended transition at a concrete input. -/
theorem claim_C1_witness :
    handle_result machineInit ⟨3, PingResult.ifaceDown⟩ 3
      = (⟨State.online, some 3, some ⟨[]⟩⟩, []) :=
  claim_C1_unknown_ifaceDown machineInit 3 3 rfl

/-- C2 counterexample: in Offline, an interface-down observation is not a
no-op: the machine leaves Offline, because the True of a down interface is
truthy and the Offline branch tests truthiness. -/
theorem claim_C2_cex :
    ¬ ((handle_result ⟨State.offline, some 0, none⟩ ⟨5, PingResult.ifaceDown⟩ 5).1.state
        = State.offline) := by
  decide

/-- C2 (amended): in Offline, handling an interface-down observation ends the
outage: exactly one OFF report for the open Offline period is emitted, and
the machine transitions to Online, starting a new Online period at the
observation timestamp with an empty aggregator. -/
theorem claim_C2_offline_ifaceDown (m : StateMachine) (t now : ℚ)
    (h : m.state = State.offline) :
    handle_result m ⟨t, PingResult.ifaceDown⟩ now
      = ({ m with
             state := State.online
             state_time := some t
             stats := some ⟨[]⟩ },
         [Report.off m.state_time now]) := by
  rcases m with ⟨st, tt, sts⟩
  cases st <;> simp_all [handle_result, PingResult.truthy, Stats.record]

/-- C2 witness: the amended transition at a concrete input. -/
theorem claim_C2_witness :
    handle_result ⟨State.offline, some 0, none⟩ ⟨5, PingResult.ifaceDown⟩ 5
      = (⟨State.online, some 5, some ⟨[]⟩⟩, [Report.off (some 0) 5]) :=
  claim_C2_offline_ifaceDown ⟨State.offline, some 0, none⟩ 5 5 rfl

/-- C3: with zero samples the code emits the literal four-field line
"0 0.00 0.00 0.00" (count plus only three zero statistics, the max field is
missing), whatever stdev value the caller would pass. -/
theorem claim_C3_zero_samples :
    Stats.report_line ⟨[]⟩ 0 = "0 0.00 0.00 0.00" := by
  decide

/-- C4: the logged duration is the timedelta seconds component, which drops
whole days: a period of 90000 seconds (25 hours) is logged as 3600, not as
the 90000 elapsed seconds the claim states. -/
theorem claim_C4_duration :
    report_duration 0 90000 = 3600 ∧ report_duration 0 90000 ≠ 90000 := by
  norm_num [report_duration]

/-- C5: over any finite observation sequence fed from the initial state, the
reports emitted equal the Online/Offline transitions in either direction,
plus exactly one flush report at cleanup when the final state still holds an
open period (Online or Offline). -/
theorem claim_C5_report_count (rs : List (Result × ℚ)) (now : ℚ) :
    (run machineInit rs).2.length + (cleanup (run machineInit rs).1 now).2.length
      = countTransitions machineInit rs
        + (if (run machineInit rs).1.state = State.online
              ∨ (run machineInit rs).1.state = State.offline
           then 1 else 0) := by
  rw [run_length, cleanup_length]
  congr 1
  cases h : (run machineInit rs).1.state <;> simp [h]

/-- C6: the sequence Reachable(5), Reachable(7), Unreachable, Unreachable,
Reachable(9), fed one tick apart from Unknown, emits exactly an ON report
for the period started at tick 0 holding the two samples 5 and 7 (mean
rendered 6.00), then an OFF report for the period started at the first
Unreachable tick; the machine ends Online with the single sample 9 and no
other report. -/
theorem claim_C6_end_to_end :
    run machineInit
        [(⟨0, PingResult.delay 5⟩, 0), (⟨1, PingResult.delay 7⟩, 1),
         (⟨2, PingResult.unreachable⟩, 2), (⟨3, PingResult.unreachable⟩, 3),
         (⟨4, PingResult.delay 9⟩, 4)]
      = (⟨State.online, some 4, some ⟨[9]⟩⟩,
         [Report.on (some 0) 2 (some ⟨[5, 7]⟩), Report.off (some 2) 4])
    ∧ ([5, 7] : List ℚ).length = 2
    ∧ statistics_mean [5, 7] = 6
    ∧ fmt2 (statistics_mean [5, 7]) = "6.00" := by
  have hm : statistics_mean [5, 7] = 6 := by norm_num [statistics_mean]
  have h6 : round_half_even ((6 : ℚ) * 100) = 600 := by norm_num [round_half_even]
  refine ⟨by decide, by decide, hm, ?_⟩
  rw [hm]
  simp only [fmt2, h6]
  decide

/-- C7: while Online, any number of consecutive interface-down observations
leaves the machine (state, period start, recorded samples) unchanged and
emits no report. -/
theorem claim_C7_online_ifaceDown (m : StateMachine) (t now : ℚ) (n : ℕ)
    (h : m.state = State.online) :
    run m (List.replicate n (⟨t, PingResult.ifaceDown⟩, now)) = (m, []) := by
  induction n with
  | zero => simp [run]
  | succ k ih =>
      simp [List.replicate_succ, run, handle_ifaceDown_online m t now h, ih]

/-- C7 witness: three interface-down ticks at a concrete Online machine. -/
theorem claim_C7_witness :
    run ⟨State.online, some 0, some ⟨[1]⟩⟩
        (List.replicate 3 (⟨5, PingResult.ifaceDown⟩, 5))
      = (⟨State.online, some 0, some ⟨[1]⟩⟩, []) :=
  claim_C7_online_ifaceDown ⟨State.online, some 0, some ⟨[1]⟩⟩ 5 5 3 rfl

/-- C8: the summary line is the sample count, the arithmetic mean, the
Bessel-corrected sample standard deviation (the nonnegative root of the
variance with divisor n - 1, here the rendered stdev argument), the minimum
and the maximum, each rendered with two fraction digits; a singleton renders
count 1, mean x, stdev 0.00, min x, max x; and [10, 20, 30] renders as
"3 20.00 10.00 10.00 30.00". -/
theorem claim_C8_summary_semantics :
    (∀ (x s : ℚ),
        Stats.report_line ⟨[x]⟩ s
          = "1 " ++ fmt2 x ++ " 0.00 " ++ fmt2 x ++ " " ++ fmt2 x)
    ∧ (∀ (l : List ℚ) (s : ℚ), 2 ≤ l.length →
        Stats.report_line ⟨l⟩ s
            = toString l.length ++ " " ++ fmt2 (l.sum / (l.length : ℚ)) ++ " "
                ++ fmt2 s ++ " " ++ fmt2 (list_min l) ++ " " ++ fmt2 (list_max l)
          ∧ statistics_mean l = l.sum / (l.length : ℚ)
          ∧ statistics_variance l
              = (l.map (fun x => (x - l.sum / (l.length : ℚ)) ^ 2)).sum
                  / ((l.length : ℚ) - 1)
          ∧ list_min l ∈ l ∧ (∀ x ∈ l, list_min l ≤ x)
          ∧ list_max l ∈ l ∧ (∀ x ∈ l, x ≤ list_max l))
    ∧ (Stats.report_line ⟨[10, 20, 30]⟩ 10 = "3 20.00 10.00 10.00 30.00"
        ∧ (10 : ℚ) ^ 2 = statistics_variance [10, 20, 30]
        ∧ statistics_mean [10, 20, 30] = 20
        ∧ list_min [10, 20, 30] = 10 ∧ list_max [10, 20, 30] = 30) := by
  have hmean : statistics_mean [10, 20, 30] = 20 := by norm_num [statistics_mean]
  have hvar : statistics_variance [10, 20, 30] = 100 := by
    norm_num [statistics_variance, statistics_mean]
  have hmin : list_min [10, 20, 30] = 10 := by norm_num [list_min, min_def]
  have hmax : list_max [10, 20, 30] = 30 := by norm_num [list_max, max_def]
  refine ⟨?_, ?_, ?_, by rw [hvar]; norm_num, hmean, hmin, hmax⟩
  · intro x s
    simp [Stats.report_line]
  · intro l s h
    have hne : l ≠ [] := by
      intro e
      rw [e] at h
      simp at h
    have hlen : l.length ≠ 1 := by omega
    refine ⟨?_, rfl, rfl, (list_min_spec l hne).1, (list_min_spec l hne).2,
      (list_max_spec l hne).1, (list_max_spec l hne).2⟩
    simp only [Stats.report_line]
    rw [if_neg hne, if_neg hlen]
    rfl
  · have h20 : round_half_even ((20 : ℚ) * 100) = 2000 := by
      norm_num [round_half_even]
    have h10 : round_half_even ((10 : ℚ) * 100) = 1000 := by
      norm_num [round_half_even]
    have h30 : round_half_even ((30 : ℚ) * 100) = 3000 := by
      norm_num [round_half_even]
    simp only [Stats.report_line]
    rw [if_neg (by simp : ¬ (([10, 20, 30] : List ℚ) = [])),
      if_neg (by simp : ¬ (([10, 20, 30] : List ℚ).length = 1)), hmean, hmin, hmax]
    simp only [fmt2, h20, h10, h30]
    decide

/-- C8 witness: the general two-or-more-sample shape applied to the samples
10, 20, 30 with their exact standard deviation 10. -/
theorem claim_C8_witness :
    2 ≤ ([10, 20, 30] : List ℚ).length
    ∧ Stats.report_line ⟨[10, 20, 30]⟩ 10
        = toString ([10, 20, 30] : List ℚ).length ++ " "
            ++ fmt2 (([10, 20, 30] : List ℚ).sum / ((([10, 20, 30] : List ℚ).length) : ℚ))
            ++ " " ++ fmt2 10 ++ " " ++ fmt2 (list_min [10, 20, 30])
            ++ " " ++ fmt2 (list_max [10, 20, 30]) :=
  ⟨by decide, (claim_C8_summary_semantics.2.1 [10, 20, 30] 10 (by decide)).1⟩

/-- C9: the shutdown flush emits exactly one report for the open period, an
ON report when Online and an OFF report when Offline, carrying the shutdown
instant as the period end, and resets the state to Unknown; from Unknown it
emits nothing. -/
theorem claim_C9_shutdown_flush (m : StateMachine) (now : ℚ) :
    (m.state = State.unknown → cleanup m now = (m, []))
    ∧ (m.state = State.online →
        cleanup m now
          = ({ m with state := State.unknown, state_time := none },
             [Report.on m.state_time now m.stats]))
    ∧ (m.state = State.offline →
        cleanup m now
          = ({ m with state := State.unknown, state_time := none },
             [Report.off m.state_time now])) := by
  rcases m with ⟨st, t, sts⟩
  cases st <;> simp [cleanup]

/-- C9 witness: the flush at concrete Unknown, Online and Offline machines. -/
theorem claim_C9_witness :
    cleanup ⟨State.unknown, none, none⟩ 7 = (⟨State.unknown, none, none⟩, [])
    ∧ cleanup ⟨State.online, some 1, some ⟨[2]⟩⟩ 7
        = (⟨State.unknown, none, some ⟨[2]⟩⟩, [Report.on (some 1) 7 (some ⟨[2]⟩)])
    ∧ cleanup ⟨State.offline, some 1, none⟩ 7
        = (⟨State.unknown, none, none⟩, [Report.off (some 1) 7]) :=
  ⟨(claim_C9_shutdown_flush ⟨State.unknown, none, none⟩ 7).1 rfl,
   (claim_C9_shutdown_flush ⟨State.online, some 1, some ⟨[2]⟩⟩ 7).2.1 rfl,
   (claim_C9_shutdown_flush ⟨State.offline, some 1, none⟩ 7).2.2 rfl⟩

/-- C10: in Offline, a reachable observation with latency exactly 0 does not
end the outage: the float 0.0 is falsy, so the machine and the report stream
are untouched. -/
theorem claim_C10_offline_zero_latency (m : StateMachine) (t now : ℚ)
    (h : m.state = State.offline) :
    handle_result m ⟨t, PingResult.delay 0⟩ now = (m, []) := by
  rcases m with ⟨st, tt, sts⟩
  cases st <;> simp_all [handle_result, PingResult.truthy]

/-- C10 witness: a zero-latency success at a concrete Offline machine. -/
theorem claim_C10_witness :
    handle_result ⟨State.offline, some 0, none⟩ ⟨5, PingResult.delay 0⟩ 5
      = (⟨State.offline, some 0, none⟩, []) :=
  claim_C10_offline_zero_latency ⟨State.offline, some 0, none⟩ 5 5 rfl
